import Mathlib

/-!
Shallow embedding of the CSV → GitHub import pipeline
(`src/csv_handler.py`, `src/validators.py`, `src/issue_mapper.py`,
`src/github_client.py`, `src/cli.py`).

Modelling conventions:

* A parsed CSV data row (one dict yielded by `csv.DictReader`) is a list of
  (column name, string value) pairs with unique keys; `row.get(k)` is the
  first binding of `k`.
* File I/O and the CSV text parser are external collaborators: `read_csv` is
  modelled on the already-parsed content, i.e. the declared header list
  (`reader.fieldnames`, `none` when the file is empty) plus the list of data
  rows the reader yields.  The `except` branch of `CSVHandler.read_csv`
  (unreadable file) is outside the embedding.
* Every method of `github_client.py` wraps its HTTP call in
  `try/except Exception` and returns `None` on any failure (transport error,
  auth error, 404, 409/422 conflict).  The client is therefore modelled as a
  record of total functions returning `Option _`; `some` stands for a truthy
  JSON payload, `none` for "not found or call failed".  A repository argument
  is `Option String` because `cli.py` can pass Python `None` through.
* Python's `list(set(labels))` produces an unspecified order; the model uses
  `List.dedup`, and every theorem about label collections is stated up to set
  (`toFinset`) membership, never up to order.
* Python `str.strip` / `str.split(';')` / `str.lower` are modelled by the
  structurally recursive `pyStrip` / `pySplit` / `pyLower` below (semantics
  of the Python originals on the ASCII data the pipeline handles).
-/

namespace CsvImport

/-- Python `str.strip()`: drop leading and trailing whitespace.  Defined by
structural recursion over the character list so that concrete instances
reduce inside the kernel (Lean's own `String.trim` is defined by
well-founded recursion on byte positions and does not). -/
def pyStrip (s : String) : String :=
  String.mk (((s.data.dropWhile Char.isWhitespace).reverse.dropWhile
    Char.isWhitespace).reverse)

/-- Helper for `pySplit`: accumulate the current chunk (reversed). -/
def pySplitAux (sep : Char) : List Char → List Char → List String
  | [], acc => [String.mk acc.reverse]
  | c :: cs, acc =>
    if c == sep then String.mk acc.reverse :: pySplitAux sep cs []
    else pySplitAux sep cs (c :: acc)

/-- Python `str.split(sep)` for a one-character separator: in particular
`"".split(';') == ['']` and empty chunks are kept. -/
def pySplit (sep : Char) (s : String) : List String :=
  pySplitAux sep s.data []

/-- Python `str.lower()` (ASCII, which is all the code compares). -/
def pyLower (s : String) : String := String.mk (s.data.map Char.toLower)

/-- One parsed CSV data row: ordered mapping from column header to value. -/
abbrev Row := List (String × String)

/-- Python `row.get(k)`: the value bound to `k`, if the key is present. -/
def rowGet? (r : Row) (k : String) : Option String :=
  (r.find? (fun p => p.1 == k)).map (fun p => p.2)

/-- Python `row.get(k, '')`. -/
def rowGetD (r : Row) (k : String) : String := (rowGet? r k).getD ""

/-- Python `row.values()`. -/
def rowValues (r : Row) : List String := r.map (fun p => p.2)

/-- Python truthiness of `any(row.values())`: some value is non-empty. -/
def rowNonEmpty (r : Row) : Bool := (rowValues r).any (fun v => v != "")

/-- An entry of the `errors` lists built by `csv_handler.py`:
keys `row`, `field`, `message` (no severity key). -/
structure Finding where
  row : Nat
  field : String
  message : String
deriving DecidableEq

/-- An entry of the warning lists built by `validators.py`: same shape plus
an explicit `severity` key (`"warn"` or `"info"`). -/
structure WFinding where
  row : Nat
  field : String
  message : String
  severity : String
deriving DecidableEq

/-- `CSVHandler.REQUIRED_COLUMNS`.  Python stores a `set`; the model fixes
this canonical enumeration order (set-iteration order is unspecified, so the
join order in the missing-columns message is a modelling choice; no claim
depends on it for more than one missing column). -/
def REQUIRED_COLUMNS : List String :=
  ["Title", "Description", "Type", "Labels", "Assignee", "Milestone"]

/-- Python `', '.join`. -/
def joinComma : List String → String
  | [] => ""
  | [s] => s
  | s :: rest => s ++ ", " ++ joinComma rest

/-- `CSVHandler.read_csv` on parsed content: header validation, then the
row-parsing loop, which silently drops rows whose values are all empty
(`if not any(row.values()): continue`).  Returns (rows, errors).
Note the parse loop runs — and rows are kept — even when required columns
are missing; only an absent/empty header row short-circuits. -/
def read_csv (fieldnames : Option (List String)) (raws : List Row) :
    List Row × List Finding :=
  match fieldnames with
  | none => ([], [⟨0, "headers", "No columns found"⟩])
  | some hs =>
    if hs.isEmpty then ([], [⟨0, "headers", "No columns found"⟩])
    else
      let missing := REQUIRED_COLUMNS.filter (fun c => !(hs.contains c))
      let errs : List Finding :=
        if missing.isEmpty then []
        else [⟨0, "headers", "Missing required columns: " ++ joinComma missing⟩]
      (raws.filter rowNonEmpty, errs)

/-- Python `str(row.get('Type'))` as interpolated into the error message:
`None` prints as `"None"`. -/
def optStr : Option String → String
  | none => "None"
  | some s => s

/-- The findings `CSVHandler.validate_format` emits for one row numbered `n`:
empty-after-strip Title, and `row.get('Type') not in {'Epic', 'Task'}`. -/
def rowFormatFindings (n : Nat) (r : Row) : List Finding :=
  (if pyStrip (rowGetD r "Title") = "" then [⟨n, "Title", "Title is required"⟩]
   else []) ++
  (if rowGet? r "Type" = some "Epic" ∨ rowGet? r "Type" = some "Task" then []
   else [⟨n, "Type",
     "Type must be 'Epic' or 'Task', got '" ++ optStr (rowGet? r "Type") ++ "'"⟩])

/-- The `enumerate(rows, start=n)` scan of `validate_format`. -/
def formatScan (n : Nat) : List Row → List Finding
  | [] => []
  | r :: rs => rowFormatFindings n r ++ formatScan (n + 1) rs

/-- `CSVHandler.validate_format` (enumeration starts at 2). -/
def validate_format (rows : List Row) : List Finding := formatScan 2 rows

/-- The dict returned by `ImportPipeline.validate`. -/
structure ValidationResult where
  valid : Bool
  rows_count : Nat
  errors : List Finding
  warnings : List WFinding
  data : List Row
deriving DecidableEq

/-- `ImportPipeline.validate`: read, validate format, assemble the result.
`valid` is `len(errors) == 0`. -/
def pipelineValidate (fieldnames : Option (List String)) (raws : List Row) :
    ValidationResult :=
  let p := read_csv fieldnames raws
  let errs := p.2 ++ validate_format p.1
  ⟨errs.isEmpty, p.1.length, errs, [], p.1⟩

/-- A created-issue payload as returned by `GitHubClient.create_issue`
(only its identity matters to the pipeline). -/
structure GIssue where
  number : Nat
deriving DecidableEq

/-- The GitHub client as the pipeline observes it.  Every method of
`github_client.py` catches all exceptions and returns `None`, so each is a
total function into `Option _`; the oracle fixes each remote answer.
`some` models a truthy (non-empty) JSON object. -/
structure GitHubClient where
  getUser : String → Option Nat
  getLabel : Option String → String → Option Nat
  createLabel : Option String → String → Option Nat
  createIssue : Option String → String → String → List String → Option String →
    Option String → Option GIssue

/-- The findings `GitHubValidator.validate_assignees` emits for one row
numbered `n`.  `client.get_user` never raises (it catches internally), so the
`except` arm of `validate_assignees` is dead; a failed or negative lookup is
`none` and yields the warn finding. -/
def assigneeFindings (c : GitHubClient) (n : Nat) (r : Row) : List WFinding :=
  let assignee := pyStrip (rowGetD r "Assignee")
  if assignee = "" then []
  else
    match c.getUser assignee with
    | some _ => []
    | none => [⟨n, "Assignee", "User '" ++ assignee ++ "' not found in GitHub",
        "warn"⟩]

/-- The `enumerate(rows, start=n)` scan of `validate_assignees`. -/
def assigneeScan (c : GitHubClient) (n : Nat) : List Row → List WFinding
  | [] => []
  | r :: rs => assigneeFindings c n r ++ assigneeScan c (n + 1) rs

/-- `GitHubValidator.validate_assignees`. -/
def validate_assignees (c : GitHubClient) (rows : List Row) : List WFinding :=
  assigneeScan c 2 rows

/-- The findings `GitHubValidator.validate_labels` emits for one row
numbered `n`: split on `;`, strip each part (empties are NOT dropped here,
unlike `IssueMapper._parse_labels`), look each up.  `get_label` never raises,
so the `except` arm is dead; `none` yields the info finding. -/
def labelFindings (c : GitHubClient) (repo : String) (n : Nat) (r : Row) :
    List WFinding :=
  let s := pyStrip (rowGetD r "Labels")
  if s = "" then []
  else
    ((pySplit ';' s).map pyStrip).flatMap (fun l =>
      match c.getLabel (some repo) l with
      | some _ => []
      | none => [⟨n, "Labels",
          "Label '" ++ l ++ "' not found in " ++ repo ++ ", will create",
          "info"⟩])

/-- The `enumerate(rows, start=n)` scan of `validate_labels`. -/
def labelScan (c : GitHubClient) (repo : String) (n : Nat) :
    List Row → List WFinding
  | [] => []
  | r :: rs => labelFindings c repo n r ++ labelScan c repo (n + 1) rs

/-- `GitHubValidator.validate_labels`. -/
def validate_labels (c : GitHubClient) (rows : List Row) (repo : String) :
    List WFinding :=
  labelScan c repo 2 rows

/-- The `repository_rules` section of the YAML configuration. -/
structure RepositoryRules where
  primary : Option String
  secondary : Option String
  defaultRepo : Option String
deriving DecidableEq

/-- One iteration of `for repo in [primary, secondary]: if repo: ...` —
Python `if repo` is false for `None` and for the empty string. -/
def repoPass (c : GitHubClient) (rows : List Row) (o : Option String) :
    List WFinding :=
  match o with
  | some repo => if repo = "" then [] else validate_labels c rows repo
  | none => []

/-- `ImportPipeline.enrich`: returns the validation result unchanged when it
is invalid; otherwise extends its warnings with the assignee pass and a label
pass per configured repository.  `valid`, `errors`, `data`, `rows_count` are
never modified. -/
def pipelineEnrich (c : GitHubClient) (cfg : RepositoryRules)
    (res : ValidationResult) : ValidationResult :=
  if res.valid then
    { res with warnings :=
        res.warnings ++ validate_assignees c res.data
          ++ repoPass c res.data cfg.primary ++ repoPass c res.data cfg.secondary }
  else res

/-- The issue payload dict built by `IssueMapper.map_row_to_issue`. -/
structure Issue where
  title : String
  body : String
  labels : List String
  assignee : Option String
  milestone : Option String
  type : String
  repository : Option String
deriving DecidableEq

/-- `IssueMapper._parse_labels`: split on `;`, strip each part, drop the
parts that are empty after stripping (an empty input is short-circuited). -/
def parse_labels (s : String) : List String :=
  if s = "" then []
  else ((pySplit ';' s).map pyStrip).filter (fun l => l != "")

/-- Python `s or None` after `.strip()`: empty becomes absent. -/
def strOrNone (s : String) : Option String :=
  if s = "" then none else some s

/-- `IssueMapper.map_row_to_issue`.  `labels.dedup` models
`list(set(labels))` (order unspecified in Python, see file header). -/
def map_row_to_issue (r : Row) (repo : Option String) : Issue :=
  let labels := parse_labels (rowGetD r "Labels") ++ ["ask-myuni"]
  { title := pyStrip (rowGetD r "Title")
    body := pyStrip (rowGetD r "Description")
    labels := labels.dedup
    assignee := strOrNone (pyStrip (rowGetD r "Assignee"))
    milestone := strOrNone (pyStrip (rowGetD r "Milestone"))
    type := (rowGet? r "Type").getD "Task"
    repository := repo }

/-- The label loop of `IssueMapper.enrich_with_github_metadata`: every label
is looked up; when absent (`get_label` returned `None`) a `create_label` call
is issued, whose result is ignored; the label is appended regardless.
First component: the rebuilt `enriched_labels` list.  Second component: the
trace of `create_label` calls issued (ghost instrumentation recording that
the call site is reached — the code never consults the call's outcome). -/
def enrichLabels (c : GitHubClient) (repo : Option String) :
    List String → List String × List (Option String × String)
  | [] => ([], [])
  | l :: ls =>
    let rest := enrichLabels c repo ls
    let calls := match c.getLabel repo l with
      | some _ => []
      | none => [(repo, l)]
    (l :: rest.1, calls ++ rest.2)

/-- `IssueMapper.enrich_with_github_metadata`, instrumented with the list of
`create_label` calls it issues (second component). -/
def enrich_with_github_metadata (c : GitHubClient) (issue : Issue) :
    Issue × List (Option String × String) :=
  let p := enrichLabels c issue.repository issue.labels
  ({ issue with labels := p.1 }, p.2)

/-- `row.get('Repository') or config...get('default')` in
`ImportPipeline.import_to_github` — Python `or` treats `None` and `""` as
false. -/
def resolveRepo (cfg : RepositoryRules) (r : Row) : Option String :=
  match rowGet? r "Repository" with
  | some v => if v = "" then cfg.defaultRepo else some v
  | none => cfg.defaultRepo

/-- An entry of the per-row `errors` list of `import_to_github`. -/
structure RowError where
  row_title : Option String
  message : String
deriving DecidableEq

/-- The per-row outcome of the commit loop: either a created issue or a
failure record (`row_title`, `message`). -/
inductive Outcome where
  | created : GIssue → Outcome
  | failed : Option String → String → Outcome
deriving DecidableEq

/-- Projection used to relate the per-row outcome sequence to the code's
`created_issues` list. -/
def Outcome.created? : Outcome → Option GIssue
  | Outcome.created g => some g
  | Outcome.failed _ _ => none

/-- Projection used to relate the per-row outcome sequence to the code's
`errors` list. -/
def Outcome.failed? : Outcome → Option RowError
  | Outcome.created _ => none
  | Outcome.failed t m => some ⟨t, m⟩

/-- The `try:` block body of the commit loop for one row: resolve the
repository, map, enrich, call `create_issue`.  Typed in the exception monad
because `cli.py` wraps the body in `try/except Exception`; with the concrete
client of `github_client.py` no sub-step raises, so this body always returns
`Except.ok` — the `Except.error` case models a raising collaborator. -/
def processRowBody (c : GitHubClient) (cfg : RepositoryRules) (r : Row) :
    Except String (Option GIssue) :=
  let repo := resolveRepo cfg r
  let issue := map_row_to_issue r repo
  let issue2 := (enrich_with_github_metadata c issue).1
  Except.ok (c.createIssue repo issue2.title issue2.body issue2.labels
    issue2.assignee issue2.milestone)

/-- The single outcome the commit loop records for one row, as a function of
that row alone: a truthy `created` payload is appended to `created_issues`;
a falsy one becomes a `Failed` record with message `"Failed to create issue"`;
an exception caught at the row boundary becomes a `Failed` record carrying
the exception text. -/
def rowOutcome (body : Row → Except String (Option GIssue)) (r : Row) :
    Outcome :=
  match body r with
  | Except.ok (some g) => Outcome.created g
  | Except.ok none => Outcome.failed (rowGet? r "Title") "Failed to create issue"
  | Except.error e => Outcome.failed (rowGet? r "Title") e

/-- The `for row in rows:` loop of `ImportPipeline.import_to_github`,
accumulating `created_issues` (first component) and `errors` (second), in
input order, never terminating early.  Parametric in the row body so that a
raising body (the `except Exception` path) is covered. -/
def importLoop (body : Row → Except String (Option GIssue)) :
    List Row → List GIssue × List RowError
  | [] => ([], [])
  | r :: rs =>
    let rest := importLoop body rs
    match body r with
    | Except.ok (some g) => (g :: rest.1, rest.2)
    | Except.ok none =>
        (rest.1, ⟨rowGet? r "Title", "Failed to create issue"⟩ :: rest.2)
    | Except.error e => (rest.1, ⟨rowGet? r "Title", e⟩ :: rest.2)

/-- The dict `import_to_github` returns on the committed path. -/
structure ImportResult where
  valid : Bool
  created_issues : List GIssue
  errors : List RowError
  total_created : Nat
deriving DecidableEq

/-- `import_to_github` returns the enrichment result unchanged when it is
invalid, else the commit report — two dict shapes in Python, a sum here. -/
inductive ImportReturn where
  | blocked : ValidationResult → ImportReturn
  | report : ImportResult → ImportReturn
deriving DecidableEq

/-- `ImportPipeline.import_to_github`. -/
def import_to_github (c : GitHubClient) (cfg : RepositoryRules)
    (res : ValidationResult) : ImportReturn :=
  if res.valid then
    let p := importLoop (processRowBody c cfg) res.data
    ImportReturn.report ⟨p.2.isEmpty, p.1, p.2, p.1.length⟩
  else ImportReturn.blocked res

/-- The exit status of the `import` subcommand of `main` (`cli.py`): exit 1
when validation fails; otherwise run enrich, then — unless `--confirm` was
passed — prompt, and on any answer other than `yes` (case-insensitively)
`sys.exit(0)`; otherwise run the import, print, and fall off `main`
(exit 0).  The enrichment result's validity is never re-checked. -/
def importCommandExit (fieldnames : Option (List String)) (raws : List Row)
    (c : GitHubClient) (cfg : RepositoryRules) (confirmFlag : Bool)
    (response : String) : Nat :=
  let v := pipelineValidate fieldnames raws
  if v.valid then
    let e := pipelineEnrich c cfg v
    if confirmFlag then
      let _ := import_to_github c cfg e
      0
    else if pyLower response = "yes" then
      let _ := import_to_github c cfg e
      0
    else 0
  else 1

/-- The condition the spec states for a valid batch, header side: the
declared header set is a superset of the required fields (an absent or empty
header row declares nothing). -/
def headersOK (fieldnames : Option (List String)) : Bool :=
  match fieldnames with
  | some hs => REQUIRED_COLUMNS.all (fun col => hs.contains col)
  | none => false

/-- The condition the spec states for a valid row: non-empty Title after
trimming, and Type exactly `Epic` or `Task`. -/
def rowOK (r : Row) : Bool :=
  (pyStrip (rowGetD r "Title") != "") &&
    ((rowGet? r "Type" == some "Epic") || (rowGet? r "Type" == some "Task"))

/-! ### Concrete sample data used by witnesses and counterexamples -/

/-- A well-formed data row. -/
def goodRow : Row :=
  [("Title", "Add login"), ("Description", "d"), ("Type", "Task"),
   ("Labels", ""), ("Assignee", ""), ("Milestone", "")]

/-- A row with the unsupported Type `Bug`. -/
def bugRow : Row :=
  [("Title", "B"), ("Description", ""), ("Type", "Bug"), ("Labels", ""),
   ("Assignee", ""), ("Milestone", "")]

/-- A data row all of whose values are empty (a line of separators such as
`,,,,,` — `csv.DictReader` yields it; `read_csv` skips it). -/
def emptyRow : Row :=
  [("Title", ""), ("Description", ""), ("Type", ""), ("Labels", ""),
   ("Assignee", ""), ("Milestone", "")]

/-- A well-formed row as parsed under a header that lacks `Milestone`. -/
def rowNoMilestone : Row :=
  [("Title", "Add login"), ("Description", "d"), ("Type", "Task"),
   ("Labels", ""), ("Assignee", "")]

/-- The row of Scenario C: `Labels="bug;  ui ;bug"`. -/
def labelRow : Row :=
  [("Title", "L"), ("Description", ""), ("Type", "Task"),
   ("Labels", "bug;  ui ;bug"), ("Assignee", ""), ("Milestone", "")]

/-- The full required header row. -/
def hdrsAll : List String := REQUIRED_COLUMNS

/-- A header row lacking `Milestone` (Scenario A). -/
def hdrsNoMilestone : List String :=
  ["Title", "Description", "Type", "Labels", "Assignee"]

/-- A client whose every remote call succeeds. -/
def clientAll : GitHubClient :=
  ⟨fun _ => some 1, fun _ _ => some 1, fun _ _ => some 1,
   fun _ _ _ _ _ _ => some ⟨7⟩⟩

/-- An empty `repository_rules` configuration. -/
def cfg0 : RepositoryRules := ⟨none, none, none⟩

/-- A client for which every label lookup and label creation fails (`None`)
while user lookup and issue creation succeed. -/
def clientNoLabels : GitHubClient :=
  ⟨fun _ => some 1, fun _ _ => none, fun _ _ => none,
   fun _ _ _ _ _ _ => some ⟨7⟩⟩

/-! ### Helper lemmas -/

/-- A row passes `validate_format` silently iff it satisfies the spec's row
condition, whatever its assigned row number. -/
theorem rowFormatFindings_eq_nil (n : Nat) (r : Row) :
    rowFormatFindings n r = [] ↔ rowOK r = true := by
  unfold rowFormatFindings rowOK
  by_cases h1 : pyStrip (rowGetD r "Title") = "" <;>
    by_cases h2 : rowGet? r "Type" = some "Epic" ∨ rowGet? r "Type" = some "Task" <;>
      simp [h1, h2]

/-- The `validate_format` scan is silent iff every row is well-formed. -/
theorem formatScan_eq_nil (rows : List Row) (n : Nat) :
    formatScan n rows = [] ↔ ∀ r ∈ rows, rowOK r = true := by
  induction rows generalizing n with
  | nil => simp [formatScan]
  | cons r rs ih =>
    simp [formatScan, List.append_eq_nil, rowFormatFindings_eq_nil, ih]

/-- Whatever one row of the scanned list contributes is in the scan's
output: the scan never stops early. -/
theorem formatScan_mem (rows : List Row) (n i : Nat) (r : Row) (f : Finding)
    (h : rows.get? i = some r) (hf : f ∈ rowFormatFindings (n + i) r) :
    f ∈ formatScan n rows := by
  induction rows generalizing n i with
  | nil => simp at h
  | cons s rs ih =>
    match i with
    | 0 =>
      simp only [List.get?] at h
      cases h
      exact List.mem_append_left _ hf
    | i + 1 =>
      refine List.mem_append_right _ (ih (n + 1) i ?_ ?_)
      · simpa using h
      · have : n + 1 + i = n + (i + 1) := by omega
        rwa [this]

/-- The enrichment loop rebuilds exactly the input label list. -/
theorem enrichLabels_fst (c : GitHubClient) (repo : Option String)
    (ls : List String) : (enrichLabels c repo ls).1 = ls := by
  induction ls with
  | nil => rfl
  | cons l ls ih => simp [enrichLabels, ih]

/-- The enrichment loop issues one `create_label` call per label whose
lookup came back `None`, in label order. -/
theorem enrichLabels_snd (c : GitHubClient) (repo : Option String)
    (ls : List String) :
    (enrichLabels c repo ls).2 = ls.filterMap (fun l =>
      match c.getLabel repo l with
      | some _ => none
      | none => some (repo, l)) := by
  induction ls with
  | nil => rfl
  | cons l ls ih =>
    simp only [enrichLabels, List.filterMap_cons, ih]
    match hg : c.getLabel repo l with
    | some _ => simp
    | none => simp

/-- The enrichment loop never consults `createLabel`'s outcome: replacing
that method changes nothing. -/
theorem enrichLabels_createLabel_irrel (c : GitHubClient)
    (f : Option String → String → Option Nat) (repo : Option String)
    (ls : List String) :
    enrichLabels ⟨c.getUser, c.getLabel, f, c.createIssue⟩ repo ls =
      enrichLabels c repo ls := by
  induction ls with
  | nil => rfl
  | cons l ls ih => simp [enrichLabels, ih]

/-- The commit loop is exactly the per-row outcome map, projected to the
`created_issues` and `errors` accumulators. -/
theorem importLoop_eq (body : Row → Except String (Option GIssue))
    (rows : List Row) :
    importLoop body rows =
      ((rows.map (rowOutcome body)).filterMap Outcome.created?,
       (rows.map (rowOutcome body)).filterMap Outcome.failed?) := by
  induction rows with
  | nil => rfl
  | cons r rs ih =>
    simp only [importLoop, List.map_cons, List.filterMap_cons, ih, rowOutcome]
    match hb : body r with
    | Except.ok (some g) => simp [Outcome.created?, Outcome.failed?]
    | Except.ok none => simp [Outcome.created?, Outcome.failed?]
    | Except.error e => simp [Outcome.created?, Outcome.failed?]

/-! ### Claim theorems -/

/-- C1: the Validate stage result has `valid = true` iff the declared header
set is a superset of the required fields and every row of the retained batch
has a non-empty Title after trimming and Type exactly `Epic` or `Task`.
(Error severity is realized structurally: these findings populate the
`errors` list, and `valid` is defined as that list being empty.) -/
theorem validate_valid_iff (fns : Option (List String)) (raws : List Row) :
    (pipelineValidate fns raws).valid = true ↔
      (headersOK fns = true ∧
        ∀ r ∈ (pipelineValidate fns raws).data, rowOK r = true) := by
  match fns with
  | none =>
    simp [pipelineValidate, read_csv, headersOK, validate_format, formatScan]
  | some hs =>
    by_cases he : hs.isEmpty
    · have h0 : hs = [] := by simpa using he
      subst h0
      simp [pipelineValidate, read_csv, headersOK, validate_format, formatScan,
        REQUIRED_COLUMNS]
    · have he' : hs.isEmpty = false := by simpa using he
      have hmiss :
          (REQUIRED_COLUMNS.filter (fun c => !(hs.contains c)) = []) ↔
            headersOK (some hs) = true := by
        simp [headersOK, List.filter_eq_nil_iff, List.all_eq_true]
      by_cases hm : REQUIRED_COLUMNS.filter (fun c => !(hs.contains c)) = []
      · simp only [pipelineValidate, read_csv, he', Bool.false_eq_true,
          if_false, validate_format, hm]
        simp only [List.isEmpty_nil, if_true, List.nil_append]
        rw [List.isEmpty_iff, formatScan_eq_nil]
        simp [hmiss.mp hm]
      · have hm' : (REQUIRED_COLUMNS.filter (fun c => !(hs.contains c))).isEmpty
            = false := by simpa [List.isEmpty_iff] using hm
        have hh : ¬ headersOK (some hs) = true := fun h => hm (hmiss.mpr h)
        simp only [pipelineValidate, read_csv, he', Bool.false_eq_true,
          if_false, validate_format, hm']
        simp [hh]

/-- Witness for C1 at a concrete well-formed input. -/
theorem validate_valid_iff_holds :
    (pipelineValidate (some hdrsAll) [goodRow]).valid = true :=
  (validate_valid_iff (some hdrsAll) [goodRow]).mpr (by decide)

/-- C2: the Commit stage records exactly one outcome per input row; the
per-row outcome sequence `rows.map (rowOutcome body)` has the input's length
and order (its `k`-th entry is a function of the `k`-th row alone, so a
remote failure or an exception caught at row `k` cannot affect any other
row, and the loop never terminates early); the code's `created_issues` and
`errors` lists are its order-preserving projections; and on a valid
enrichment result `import_to_github` runs exactly this loop over the batch. -/
theorem commit_outcomes (body : Row → Except String (Option GIssue))
    (rows : List Row) (c : GitHubClient) (cfg : RepositoryRules)
    (res : ValidationResult) (hv : res.valid = true) :
    (importLoop body rows).1 =
        (rows.map (rowOutcome body)).filterMap Outcome.created?
    ∧ (importLoop body rows).2 =
        (rows.map (rowOutcome body)).filterMap Outcome.failed?
    ∧ (rows.map (rowOutcome body)).length = rows.length
    ∧ (∀ k : Nat, (rows.map (rowOutcome body)).get? k =
        (rows.get? k).map (rowOutcome body))
    ∧ import_to_github c cfg res = ImportReturn.report
        ⟨(importLoop (processRowBody c cfg) res.data).2.isEmpty,
         (importLoop (processRowBody c cfg) res.data).1,
         (importLoop (processRowBody c cfg) res.data).2,
         (importLoop (processRowBody c cfg) res.data).1.length⟩ := by
  refine ⟨?_, ?_, List.length_map _ _, fun k => List.get?_map _ _ _, ?_⟩
  · rw [importLoop_eq]
  · rw [importLoop_eq]
  · simp [import_to_github, hv]

/-- Witness for C2 at a concrete one-row batch with a succeeding client. -/
theorem commit_outcomes_holds :
    (pipelineValidate (some hdrsAll) [goodRow]).valid = true ∧
      import_to_github clientAll cfg0 (pipelineValidate (some hdrsAll) [goodRow])
        = ImportReturn.report ⟨true, [⟨7⟩], [], 1⟩ :=
  ⟨by decide,
    (commit_outcomes (processRowBody clientAll cfg0) [] clientAll cfg0
        (pipelineValidate (some hdrsAll) [goodRow]) (by decide)).2.2.2.2.trans
      (by decide)⟩

/-- C3: the mapped item's label set is the Labels field split on `;`,
trimmed, empties dropped, deduplicated, union the fixed project tag
`ask-myuni`; the tag is present for every record whatever its Labels field;
and `Labels="bug;  ui ;bug"` maps to exactly `{"bug", "ui", "ask-myuni"}`.
(Python's `list(set(...))` fixes no order, so the set-level statement.) -/
theorem map_labels_tagged :
    (∀ (r : Row) (repo : Option String),
        "ask-myuni" ∈ (map_row_to_issue r repo).labels
        ∧ (map_row_to_issue r repo).labels.toFinset =
            (parse_labels (rowGetD r "Labels")).toFinset ∪ {"ask-myuni"}
        ∧ (map_row_to_issue r repo).labels.Nodup)
    ∧ parse_labels "bug;  ui ;bug" = ["bug", "ui", "bug"]
    ∧ (map_row_to_issue labelRow none).labels.toFinset =
        {"bug", "ui", "ask-myuni"} := by
  refine ⟨fun r repo => ⟨?_, ?_, ?_⟩, by decide, by decide⟩
  · simp [map_row_to_issue, List.mem_dedup]
  · ext a
    simp [map_row_to_issue, List.mem_toFinset, List.mem_dedup,
      List.mem_append]
  · exact List.nodup_dedup _

/-- Witness for C3 at a concrete record. -/
theorem map_labels_tagged_holds :
    "ask-myuni" ∈ (map_row_to_issue goodRow none).labels :=
  (map_labels_tagged.1 goodRow none).1

/-- C4: enrichment returns the item with every field other than `labels`
unchanged (in fact it rebuilds `labels` to the identical list: it only
re-validates, never removes), and it is idempotent — the label set after a
second pass equals the set after one pass (the remote oracle is fixed,
i.e. no concurrent external mutation). -/
theorem enrich_mutates_only_labels (c : GitHubClient) (issue : Issue) :
    (enrich_with_github_metadata c issue).1.title = issue.title
    ∧ (enrich_with_github_metadata c issue).1.body = issue.body
    ∧ (enrich_with_github_metadata c issue).1.assignee = issue.assignee
    ∧ (enrich_with_github_metadata c issue).1.milestone = issue.milestone
    ∧ (enrich_with_github_metadata c issue).1.type = issue.type
    ∧ (enrich_with_github_metadata c issue).1.repository = issue.repository
    ∧ (∀ l ∈ issue.labels, l ∈ (enrich_with_github_metadata c issue).1.labels)
    ∧ (enrich_with_github_metadata c
          (enrich_with_github_metadata c issue).1).1.labels.toFinset =
        (enrich_with_github_metadata c issue).1.labels.toFinset := by
  have h : (enrich_with_github_metadata c issue).1 = issue := by
    cases issue
    simp [enrich_with_github_metadata, enrichLabels_fst]
  rw [h]
  exact ⟨rfl, rfl, rfl, rfl, rfl, rfl, fun l hl => hl, by rw [h]⟩

/-- Witness for C4 at a concrete item. -/
theorem enrich_mutates_only_labels_holds :
    (enrich_with_github_metadata clientAll (map_row_to_issue labelRow none)).1.title
      = (map_row_to_issue labelRow none).title :=
  (enrich_mutates_only_labels clientAll (map_row_to_issue labelRow none)).1

/-- C5: during enrichment a `create_label` call is issued for exactly the
labels whose remote lookup did not succeed (absent or lookup failed), in
order; every label is kept on the item regardless; and the outcome of the
creation call is never consulted — replacing the client's `createLabel`
method by any function (one that fails, or reports an already-exists
conflict, i.e. returns `none`) changes neither the enriched item, nor its
call trace, nor any commit outcome of the whole import stage.  Hence a
failed creation can produce no `Failed` outcome and no finding. -/
theorem enrich_create_call_tolerance (c : GitHubClient) (issue : Issue) :
    (enrich_with_github_metadata c issue).2 =
      issue.labels.filterMap (fun l =>
        match c.getLabel issue.repository l with
        | some _ => none
        | none => some (issue.repository, l))
    ∧ (enrich_with_github_metadata c issue).1.labels = issue.labels
    ∧ (∀ f : Option String → String → Option Nat,
        enrich_with_github_metadata ⟨c.getUser, c.getLabel, f, c.createIssue⟩
            issue
          = enrich_with_github_metadata c issue)
    ∧ (∀ (f : Option String → String → Option Nat) (cfg : RepositoryRules)
        (res : ValidationResult),
        import_to_github ⟨c.getUser, c.getLabel, f, c.createIssue⟩ cfg res
          = import_to_github c cfg res) := by
  have hbody : ∀ (f : Option String → String → Option Nat)
      (cfg : RepositoryRules) (r : Row),
      processRowBody ⟨c.getUser, c.getLabel, f, c.createIssue⟩ cfg r =
        processRowBody c cfg r := by
    intro f cfg r
    simp [processRowBody, enrich_with_github_metadata,
      enrichLabels_createLabel_irrel]
  refine ⟨enrichLabels_snd c issue.repository issue.labels, ?_, ?_, ?_⟩
  · simp [enrich_with_github_metadata, enrichLabels_fst]
  · intro f
    simp [enrich_with_github_metadata, enrichLabels_createLabel_irrel]
  · intro f cfg res
    have hloop : importLoop
        (processRowBody ⟨c.getUser, c.getLabel, f, c.createIssue⟩ cfg)
          res.data = importLoop (processRowBody c cfg) res.data := by
      have : processRowBody ⟨c.getUser, c.getLabel, f, c.createIssue⟩ cfg =
          processRowBody c cfg := funext (hbody f cfg)
      rw [this]
    simp [import_to_github, hloop]

/-- Witness for C5: with a client whose label lookups all fail, one create
call is issued per label of the item. -/
theorem enrich_create_call_tolerance_holds :
    (enrich_with_github_metadata clientNoLabels
        (map_row_to_issue labelRow none)).2 =
      [(none, "ui"), (none, "bug"), (none, "ask-myuni")] :=
  (enrich_create_call_tolerance clientNoLabels
      (map_row_to_issue labelRow none)).1.trans (by decide)

/-- C6, counterexample: on a batch that validates cleanly, with `--confirm`
absent and the prompt answered `no` (the caller declines), the `import`
subcommand exits with status 0 — `main` runs `sys.exit(0)` on decline — so
the claim that declining confirmation forces a non-zero exit is false. -/
theorem decline_exits_zero :
    (pipelineValidate (some hdrsAll) [goodRow]).valid = true
    ∧ importCommandExit (some hdrsAll) [goodRow] clientAll cfg0 false "no"
        = 0 := by
  exact ⟨by decide, by decide⟩

/-- C6, amended: the `import` subcommand's exit status is non-zero iff the
Validate stage is invalid (Enrich never changes the `valid` flag of a valid
result, so "Validate or Enrich invalid" reduces to this).  Declining the
confirmation prompt exits zero, and per-row commit failures never affect
the exit status. -/
theorem import_exit_eq (fns : Option (List String)) (raws : List Row)
    (c : GitHubClient) (cfg : RepositoryRules) (confirmFlag : Bool)
    (response : String) :
    importCommandExit fns raws c cfg confirmFlag response =
      (if (pipelineValidate fns raws).valid then 0 else 1)
    ∧ ∀ res : ValidationResult, (pipelineEnrich c cfg res).valid = res.valid := by
  constructor
  · unfold importCommandExit
    by_cases h : (pipelineValidate fns raws).valid
    · simp only [h, if_true]
      cases confirmFlag <;> simp
    · simp [h]
  · intro res
    by_cases hv : res.valid <;> simp [pipelineEnrich, hv]

/-- Witness for C6's amended statement: an invalid batch exits 1. -/
theorem import_exit_eq_holds :
    importCommandExit (some hdrsAll) [bugRow] clientAll cfg0 true "" = 1 :=
  (import_exit_eq (some hdrsAll) [bugRow] clientAll cfg0 true "").1.trans
    (by decide)

/-- C7, counterexample: with a header lacking `Milestone` and one otherwise
well-formed data row, Validate does return `valid = false` with exactly one
row-0 finding citing the missing column — but the data row IS retained in
the stage result (`data` is non-empty and `rows_count = 1`), refuting "zero
data rows retained": `read_csv` keeps parsing and collecting rows after
recording the header error. -/
theorem missing_column_keeps_rows :
    (pipelineValidate (some hdrsNoMilestone) [rowNoMilestone]).valid = false
    ∧ (pipelineValidate (some hdrsNoMilestone) [rowNoMilestone]).errors =
        [⟨0, "headers", "Missing required columns: Milestone"⟩]
    ∧ (pipelineValidate (some hdrsNoMilestone) [rowNoMilestone]).data =
        [rowNoMilestone]
    ∧ (pipelineValidate (some hdrsNoMilestone) [rowNoMilestone]).rows_count
        = 1 := by
  exact ⟨by decide, by decide, by decide, by decide⟩

/-- C7, amended: for a header lacking `Milestone` and any batch of
well-formed non-empty rows, Validate returns `valid = false` with exactly
one row-0 finding citing the missing column, and ALL data rows are retained
in the stage result (`data` is the full batch, `rows_count` its length). -/
theorem missing_column_behavior (raws : List Row)
    (h : ∀ r ∈ raws, rowOK r = true ∧ rowNonEmpty r = true) :
    (pipelineValidate (some hdrsNoMilestone) raws).valid = false
    ∧ (pipelineValidate (some hdrsNoMilestone) raws).errors =
        [⟨0, "headers", "Missing required columns: Milestone"⟩]
    ∧ (pipelineValidate (some hdrsNoMilestone) raws).data = raws
    ∧ (pipelineValidate (some hdrsNoMilestone) raws).rows_count =
        raws.length := by
  have hfilter : raws.filter rowNonEmpty = raws :=
    List.filter_eq_self.mpr (fun r hr => (h r hr).2)
  have hscan : formatScan 2 raws = [] :=
    (formatScan_eq_nil raws 2).mpr (fun r hr => (h r hr).1)
  have hread : read_csv (some hdrsNoMilestone) raws =
      (raws.filter rowNonEmpty,
       [⟨0, "headers", "Missing required columns: Milestone"⟩]) := rfl
  simp [pipelineValidate, hread, validate_format, hfilter, hscan]

/-- Witness for C7's amended statement at a concrete batch. -/
theorem missing_column_behavior_holds :
    (pipelineValidate (some hdrsNoMilestone) [rowNoMilestone]).data =
        [rowNoMilestone]
    ∧ (pipelineValidate (some hdrsNoMilestone) [rowNoMilestone]).valid =
        false :=
  ⟨(missing_column_behavior [rowNoMilestone] (by decide)).2.2.1,
   (missing_column_behavior [rowNoMilestone] (by decide)).1⟩

/-- C8, failing input: header row (file row 1), a well-formed row (file
row 2), an all-empty row such as `,,,,,` (file row 3), and a row with
`Type="Bug"` (file row 4, index 2 of the parsed input).  `read_csv` drops
the empty row and discards its enumeration, and `validate_format`
re-enumerates the FILTERED batch from 2, so the Bug row's finding carries
row 3 — not its input-file row number 4 as the claim requires (the bad row
sits at filtered index 1, hence 1 + 2 = 3). -/
theorem empty_row_shifts_attribution :
    (pipelineValidate (some hdrsAll) [goodRow, emptyRow, bugRow]).errors =
      [⟨3, "Type", "Type must be 'Epic' or 'Task', got 'Bug'"⟩]
    ∧ [goodRow, emptyRow, bugRow].get? 2 = some bugRow
    ∧ (pipelineValidate (some hdrsAll) [goodRow, emptyRow, bugRow]).data.get? 1
        = some bugRow := by
  exact ⟨by decide, by decide, by decide⟩

/-- C9: a batch whose retained row `i` has `Type="Bug"` makes Validate
invalid, with a row-level finding on field `Type` naming the offending
value and numbered `i + 2`; and the scan never stops early — EVERY retained
row's format findings end up in the stage's error list.  (Error severity is
realized structurally by membership in `errors`, which is what forces
`valid = false`; the csv_handler findings carry no severity key.) -/
theorem bad_type_collected (hs : List String) (raws : List Row) (i : Nat)
    (r : Row)
    (h1 : (pipelineValidate (some hs) raws).data.get? i = some r)
    (h2 : rowGet? r "Type" = some "Bug") :
    (pipelineValidate (some hs) raws).valid = false
    ∧ Finding.mk (i + 2) "Type" "Type must be 'Epic' or 'Task', got 'Bug'"
        ∈ (pipelineValidate (some hs) raws).errors
    ∧ ∀ (j : Nat) (s : Row),
        (pipelineValidate (some hs) raws).data.get? j = some s →
          ∀ f ∈ rowFormatFindings (j + 2) s,
            f ∈ (pipelineValidate (some hs) raws).errors := by
  have hdata : (pipelineValidate (some hs) raws).data =
      (read_csv (some hs) raws).1 := rfl
  have herr : (pipelineValidate (some hs) raws).errors =
      (read_csv (some hs) raws).2 ++
        formatScan 2 (read_csv (some hs) raws).1 := rfl
  have hvalid : (pipelineValidate (some hs) raws).valid =
      (pipelineValidate (some hs) raws).errors.isEmpty := rfl
  have hcollect : ∀ (j : Nat) (s : Row),
      (pipelineValidate (some hs) raws).data.get? j = some s →
        ∀ f ∈ rowFormatFindings (j + 2) s,
          f ∈ (pipelineValidate (some hs) raws).errors := by
    intro j s hj f hf
    rw [herr]
    refine List.mem_append_right _ ?_
    refine formatScan_mem _ 2 j s f (by rwa [hdata] at hj) ?_
    rwa [Nat.add_comm 2 j]
  have hmem : Finding.mk (i + 2) "Type"
      "Type must be 'Epic' or 'Task', got 'Bug'"
        ∈ (pipelineValidate (some hs) raws).errors := by
    refine hcollect i r h1 _ ?_
    refine List.mem_append_right _ ?_
    simp [h2, optStr]
  refine ⟨?_, hmem, hcollect⟩
  rw [hvalid]
  cases herrs : (pipelineValidate (some hs) raws).errors with
  | nil =>
    rw [herrs] at hmem
    simp at hmem
  | cons f fs => rfl

/-- Witness for C9 at a concrete two-row batch (the second, well-formed row
shows scanning continued past the bad one). -/
theorem bad_type_collected_holds :
    (pipelineValidate (some hdrsAll) [bugRow, goodRow]).valid = false
    ∧ Finding.mk 2 "Type" "Type must be 'Epic' or 'Task', got 'Bug'"
        ∈ (pipelineValidate (some hdrsAll) [bugRow, goodRow]).errors :=
  ⟨(bad_type_collected hdrsAll [bugRow, goodRow] 0 bugRow (by decide)
      (by decide)).1,
   (bad_type_collected hdrsAll [bugRow, goodRow] 0 bugRow (by decide)
      (by decide)).2.1⟩

/-- C10: a parsed data row all of whose values are empty is silently
dropped: the retained batch is exactly the non-empty-filtered input, the
row count counts only retained rows, the stage's findings are a function of
the header and the retained rows alone (so no finding is ever emitted for a
dropped row), such a row is not a member of any stage's batch data, and the
Enrich stage carries the same batch forward. -/
theorem empty_rows_excluded (hs : List String) (raws : List Row)
    (c : GitHubClient) (cfg : RepositoryRules) (hhs : hs.isEmpty = false) :
    (pipelineValidate (some hs) raws).data = raws.filter rowNonEmpty
    ∧ (pipelineValidate (some hs) raws).rows_count =
        (raws.filter rowNonEmpty).length
    ∧ (pipelineValidate (some hs) raws).errors =
        (read_csv (some hs) raws).2 ++
          validate_format (raws.filter rowNonEmpty)
    ∧ (∀ r ∈ raws, rowNonEmpty r = false →
        r ∉ (pipelineValidate (some hs) raws).data)
    ∧ (pipelineEnrich c cfg (pipelineValidate (some hs) raws)).data =
        (pipelineValidate (some hs) raws).data := by
  have hdata : (pipelineValidate (some hs) raws).data =
      raws.filter rowNonEmpty := by
    simp [pipelineValidate, read_csv, hhs]
  refine ⟨hdata, ?_, ?_, ?_, ?_⟩
  · simp [pipelineValidate, read_csv, hhs]
  · simp [pipelineValidate, read_csv, hhs, validate_format]
  · intro r hr hne hmem
    rw [hdata] at hmem
    rcases List.mem_filter.mp hmem with ⟨_, hpos⟩
    rw [hne] at hpos
    exact Bool.false_ne_true hpos
  · by_cases hv : (pipelineValidate (some hs) raws).valid <;>
      simp [pipelineEnrich, hv]

/-- Witness for C10 at a concrete batch with an all-empty row. -/
theorem empty_rows_excluded_holds :
    (pipelineValidate (some hdrsAll) [goodRow, emptyRow]).data = [goodRow] :=
  (empty_rows_excluded hdrsAll [goodRow, emptyRow] clientAll cfg0
      (by decide)).1.trans (by decide)

end CsvImport
